import Mathlib

-- Verification of the alert-evaluation core of the Wicksy bot
-- (src/wicksy/features/alerts.py and src/prices.py), shallowly embedded:
-- prices are rationals, the sqlite alert store is a list of rows, the
-- in-memory price cache is an association list, and every observable
-- side effect of a pass (schema work, store reads and writes, resolver
-- calls, notification deliveries) is recorded in an event trace.

namespace Wicksy

-- ---------- data model ----------

/-- One row of the `alerts` table:
`id, user_id, symbol, target, direction, paused`. -/
structure Alert where
  id : Nat
  user_id : Nat
  symbol : String
  target : ℚ
  direction : String
  paused : Bool
deriving DecidableEq, Repr

/-- One value of the `_PRICE_CACHE` dict:
`(price, change, source, ts)` with absent components as `none`. -/
structure CacheEntry where
  price : Option ℚ
  change : Option ℚ
  source : Option String
  ts : ℚ
deriving DecidableEq, Repr

/-- The `_PRICE_CACHE` dict, symbol-keyed. -/
abbrev PriceCache := List (String × CacheEntry)

/-- The constant `PRICE_CACHE_TTL = 55` seconds. -/
def PRICE_CACHE_TTL : ℚ := 55

/-- Dict read `_PRICE_CACHE.get(symbol)`. -/
def cacheLookup (c : PriceCache) (s : String) : Option CacheEntry :=
  match c.find? (fun e => e.1 == s) with
  | some e => some e.2
  | none => none

/-- Dict write `_PRICE_CACHE[symbol] = entry` (overwrite semantics). -/
def cacheInsert (c : PriceCache) (s : String) (e : CacheEntry) : PriceCache :=
  (s, e) :: c.filter (fun p => p.1 ≠ s)

/-- The `(price, change, source)` triple returned by price resolution. -/
abbrev PriceQuote := Option ℚ × Option ℚ × Option String

/-- Abstract view of `resolve_price` as used by the cache: total because
the real function catches every provider failure (claim about that is
settled separately on `resolve_price` below). -/
abbrev Resolver := String → PriceQuote

/-- The function `_get_price_cached(symbol)`: serve a live cache entry without calling
the resolver, otherwise call the resolver once, store its result
(absent triples included) under timestamp `now`, and return it.
Returns the quote, the updated cache, and whether the resolver was
invoked. -/
def _get_price_cached (resolver : Resolver) (now : ℚ) (cache : PriceCache)
    (symbol : String) : PriceQuote × PriceCache × Bool :=
  match cacheLookup cache symbol with
  | some e =>
    if now - e.ts < PRICE_CACHE_TTL then
      ((e.price, e.change, e.source), cache, false)
    else
      let r := resolver symbol
      (r, cacheInsert cache symbol ⟨r.1, r.2.1, r.2.2, now⟩, true)
  | none =>
    let r := resolver symbol
    (r, cacheInsert cache symbol ⟨r.1, r.2.1, r.2.2, now⟩, true)

-- ---------- providers and resolve_price (src/prices.py) ----------

/-- Outcome of one raw provider interaction: a raised exception or a
returned payload. -/
inductive FetchResult (α : Type) where
  | raises (msg : String)
  | returns (val : α)
deriving DecidableEq, Repr

/-- The function `get_crypto_price`: CoinGecko lookup. The payload is `some (usd,
usd_24h_change)` when the response carries the symbol, `none` when it
does not; every exception is caught and turned into `(none, none)`. -/
def get_crypto_price (fetch : String → FetchResult (Option (ℚ × ℚ)))
    (symbol : String) : Option ℚ × Option ℚ :=
  match fetch symbol with
  | .raises _ => (none, none)
  | .returns none => (none, none)
  | .returns (some (p, c)) => (some p, some c)

/-- The function `get_stock_price`: Yahoo history lookup. The payload is `some (close,
change_pct)` when history is non-empty, `none` when it is empty; every
exception is caught and turned into `(none, none)`. -/
def get_stock_price (fetch : String → FetchResult (Option (ℚ × ℚ)))
    (symbol : String) : Option ℚ × Option ℚ :=
  match fetch symbol with
  | .raises _ => (none, none)
  | .returns none => (none, none)
  | .returns (some (p, c)) => (some p, some c)

/-- The function `resolve_price(symbol)`: try crypto first; if it yields a price
return it with source `"crypto"`, else try stock with source
`"stock"`, else the all-absent triple. -/
def resolve_price (cryptoFetch stockFetch : String → FetchResult (Option (ℚ × ℚ)))
    (symbol : String) : PriceQuote :=
  let pc := get_crypto_price cryptoFetch symbol
  match pc.1 with
  | some price => (some price, pc.2, some "crypto")
  | none =>
    let ps := get_stock_price stockFetch symbol
    match ps.1 with
    | some price => (some price, ps.2, some "stock")
    | none => (none, none, none)

-- ---------- notifier (send_alert) ----------

/-- Outcome of one discord `send` call: it returns or raises. -/
inductive SendOutcome where
  | ok
  | raises (msg : String)
deriving DecidableEq, Repr

/-- A channel object as seen by `send_alert`: `isTextLike` is the
`isinstance(channel, (TextChannel, Thread))` test. -/
structure ChannelInfo where
  isTextLike : Bool
deriving DecidableEq, Repr

/-- A guild as seen by the last-resort loop: its system channel id, when
present. -/
structure GuildInfo where
  systemChannel : Option Nat
deriving DecidableEq, Repr

/-- Environment of one `send_alert` call: the module globals
(`BOT_INSTANCE` presence, `ALERTS_CHANNEL_ID`) and the behaviour of
every discord primitive the function touches. `fetchUser` may raise or
return a user object whose truthiness is the `Bool`. -/
structure NotifyEnv where
  botPresent : Bool
  alertsChannelId : Option Nat
  getChannel : Nat → Option ChannelInfo
  channelSend : Nat → SendOutcome
  fetchUser : Nat → FetchResult Bool
  userSend : Nat → SendOutcome
  systemChannelSend : Nat → SendOutcome
  guilds : List GuildInfo

/-- One attempted `send` during the cascade, with its outcome. -/
inductive Attempt where
  | channelSend (cid : Nat) (outcome : SendOutcome)
  | dmSend (uid : Nat) (outcome : SendOutcome)
  | systemSend (cid : Nat) (outcome : SendOutcome)
deriving DecidableEq, Repr

/-- The tier that finally delivered the message, if any. -/
inductive Tier where
  | channel (cid : Nat)
  | dm (uid : Nat)
  | broadcast (cid : Nat)
deriving DecidableEq, Repr

/-- First tier of `send_alert`: the configured public channel. Returns
the channel id on a successful send, together with the send attempts
made. No attempt is made when no channel is configured, the channel is
not found, or it is not text-like; a raising send is caught. -/
def tryChannelTier (env : NotifyEnv) : Option Nat × List Attempt :=
  match env.alertsChannelId with
  | none => (none, [])
  | some cid =>
    match env.getChannel cid with
    | none => (none, [])
    | some ch =>
      if ch.isTextLike then
        match env.channelSend cid with
        | .ok => (some cid, [.channelSend cid .ok])
        | .raises m => (none, [.channelSend cid (.raises m)])
      else (none, [])

/-- Second tier of `send_alert`: direct message. `fetch_user` raising is
caught (falling through); a falsy user skips the send; a raising
`user.send` is caught. Returns whether the DM was delivered. -/
def tryDmTier (env : NotifyEnv) (uid : Nat) : Bool × List Attempt :=
  match env.fetchUser uid with
  | .raises _ => (false, [])
  | .returns false => (false, [])
  | .returns true =>
    match env.userSend uid with
    | .ok => (true, [.dmSend uid .ok])
    | .raises m => (false, [.dmSend uid (.raises m)])

/-- Third tier of `send_alert`: loop over guilds, send to the first
system channel; `break` on success, `continue` on a raised send, skip
guilds with no system channel. -/
def broadcastLoop (send : Nat → SendOutcome) : List GuildInfo → Option Nat × List Attempt
  | [] => (none, [])
  | g :: rest =>
    match g.systemChannel with
    | none => broadcastLoop send rest
    | some cid =>
      match send cid with
      | .ok => (some cid, [.systemSend cid .ok])
      | .raises m =>
        ((broadcastLoop send rest).1,
          .systemSend cid (.raises m) :: (broadcastLoop send rest).2)

/-- The function `send_alert(user_id, symbol, price, target, direction, change)`:
cascade channel → DM → guild broadcast, each tier tried only when the
previous one did not deliver, every send failure swallowed. Returns
which tier delivered (if any) and the ordered list of send attempts;
totality of this function is the embedded form of "never raises to its
caller". The message text itself is out of scope, so the content
arguments are unused. -/
def send_alert (env : NotifyEnv) (user_id : Nat) (_symbol : String)
    (_price _target : ℚ) (_direction : String) (_change : Option ℚ) :
    Option Tier × List Attempt :=
  if env.botPresent = false then (none, [])
  else
    match (tryChannelTier env).1 with
    | some cid => (some (.channel cid), (tryChannelTier env).2)
    | none =>
      if (tryDmTier env user_id).1 then
        (some (.dm user_id), (tryChannelTier env).2 ++ (tryDmTier env user_id).2)
      else
        ((broadcastLoop env.systemChannelSend env.guilds).1.map .broadcast,
          (tryChannelTier env).2 ++ (tryDmTier env user_id).2 ++
            (broadcastLoop env.systemChannelSend env.guilds).2)

-- ---------- the evaluation pass (alert_checker) ----------

/-- Which schema objects already exist in the sqlite file: the two
tables and the later-added `paused` column. -/
structure Schema where
  settingsTable : Bool
  alertsTable : Bool
  pausedCol : Bool
deriving DecidableEq, Repr

/-- The state a pass runs against: the reentrancy lock
(`_ALERT_LOOP_LOCK`), the schema, the `alerts` table rows, and the
price cache. -/
structure SysState where
  locked : Bool
  schema : Schema
  alerts : List Alert
  cache : PriceCache
deriving Repr

/-- Observable side effects of a pass, in order. `schemaRead` is the
`PRAGMA table_info` query, `schemaWrite` a DDL statement that changed
the schema; `loadAlerts` is the `SELECT ... WHERE paused=0` read of the
alert store; `deleteAlert` is the alert-store write of the cleanup
batch. -/
inductive Event where
  | schemaRead
  | schemaWrite
  | loadAlerts (n : Nat)
  | resolverCall (symbol : String)
  | deliverAlert (alertId : Nat) (attempts : List Attempt) (result : Option Tier)
  | deleteAlert (alertId : Nat)
deriving DecidableEq, Repr

/-- The function `_ensure_schema()`: create the two tables if missing, read
`PRAGMA table_info(alerts)`, add the `paused` column if missing. -/
def _ensure_schema (s : Schema) : Schema × List Event :=
  (⟨true, true, true⟩,
    (if s.settingsTable then [] else [Event.schemaWrite]) ++
      (if s.alertsTable then [] else [Event.schemaWrite]) ++
      [Event.schemaRead] ++
      (if s.pausedCol then [] else [Event.schemaWrite]))

/-- The trigger predicate of step 3 of the loop:
`(direction == "above" and price >= target) or
 (direction == "below" and price <= target)`. -/
def triggered (direction : String) (price target : ℚ) : Bool :=
  (direction == "above" && decide (price ≥ target)) ||
    (direction == "below" && decide (price ≤ target))

/-- The load phase: `SELECT ... FROM alerts WHERE paused=0`. -/
def activeAlerts (s : SysState) : List Alert :=
  s.alerts.filter (fun a => a.paused = false)

/-- The set comprehension building `unique_symbols`: the distinct symbols
of the loaded alerts. -/
def uniqueSymbols (alerts : List Alert) : List String :=
  (alerts.map (fun a => a.symbol)).dedup

/-- The fan-out resolution phase: resolve each distinct symbol through
the cache, threading the cache and recording one `resolverCall` event
per actual resolver invocation. Returns the `prices` dict as an
association list. -/
def fetchPhase (resolver : Resolver) (now : ℚ) :
    List String → PriceCache → List (String × PriceQuote) × PriceCache × List Event
  | [], cache => ([], cache, [])
  | sym :: rest, cache =>
    ((sym, (_get_price_cached resolver now cache sym).1) ::
        (fetchPhase resolver now rest (_get_price_cached resolver now cache sym).2.1).1,
      (fetchPhase resolver now rest (_get_price_cached resolver now cache sym).2.1).2.1,
      (if (_get_price_cached resolver now cache sym).2.2 then [Event.resolverCall sym] else []) ++
        (fetchPhase resolver now rest (_get_price_cached resolver now cache sym).2.1).2.2)

/-- The dict read `prices.get(symbol, (None, None, None))`. -/
def pricesGet (m : List (String × PriceQuote)) (s : String) : PriceQuote :=
  match m.find? (fun e => e.1 == s) with
  | some e => e.2
  | none => (none, none, none)

/-- The delivery event produced for alert `a` at resolved price
`price`: the `send_alert` call with the cached change, recorded with
its attempts and outcome. -/
def deliverEventFor (env : NotifyEnv) (prices : List (String × PriceQuote))
    (a : Alert) (price : ℚ) : Event :=
  Event.deliverAlert a.id
    (send_alert env a.user_id a.symbol price a.target a.direction
      (pricesGet prices a.symbol).2.1).2
    (send_alert env a.user_id a.symbol price a.target a.direction
      (pricesGet prices a.symbol).2.1).1

/-- Evaluation of one alert in step 3 of the loop: skip silently when
its price is absent; when triggered, deliver (inside `try`) and then
mark for deletion (inside `finally`). -/
def evalStep (env : NotifyEnv) (prices : List (String × PriceQuote))
    (a : Alert) : List Event × List Nat :=
  match (pricesGet prices a.symbol).1 with
  | none => ([], [])
  | some price =>
    if triggered a.direction price a.target then
      ([deliverEventFor env prices a price], [a.id])
    else ([], [])

/-- Step 3 of the loop over every loaded alert, in order, collecting
delivery events and the `to_delete` list. -/
def evalPhase (env : NotifyEnv) (prices : List (String × PriceQuote)) :
    List Alert → List Event × List Nat
  | [] => ([], [])
  | a :: rest =>
    ((evalStep env prices a).1 ++ (evalPhase env prices rest).1,
      (evalStep env prices a).2 ++ (evalPhase env prices rest).2)

/-- The resolved prices a pass works with (the `prices` dict after the
`asyncio.gather`). -/
def passPrices (resolver : Resolver) (now : ℚ) (s : SysState) :
    List (String × PriceQuote) :=
  (fetchPhase resolver now (uniqueSymbols (activeAlerts s)) s.cache).1

/-- One invocation of `alert_checker`: bail out without a bot instance;
run `_ensure_schema`; skip if the reentrancy lock is held; load active
alerts and stop if none; resolve distinct symbols through the cache;
evaluate and deliver; delete fired alerts in one batch. Returns the new
state and the ordered event trace. -/
def alert_checker (resolver : Resolver) (env : NotifyEnv) (now : ℚ)
    (s : SysState) : SysState × List Event :=
  if env.botPresent = false then (s, [])
  else if s.locked then
    ({ s with schema := (_ensure_schema s.schema).1 }, (_ensure_schema s.schema).2)
  else if (activeAlerts s).isEmpty then
    ({ s with schema := (_ensure_schema s.schema).1 },
      (_ensure_schema s.schema).2 ++ [Event.loadAlerts (activeAlerts s).length])
  else
    ({ s with
        schema := (_ensure_schema s.schema).1,
        alerts := s.alerts.filter (fun a =>
          !((evalPhase env (passPrices resolver now s) (activeAlerts s)).2.contains a.id)),
        cache := (fetchPhase resolver now (uniqueSymbols (activeAlerts s)) s.cache).2.1 },
      (_ensure_schema s.schema).2 ++ [Event.loadAlerts (activeAlerts s).length] ++
        (fetchPhase resolver now (uniqueSymbols (activeAlerts s)) s.cache).2.2 ++
        (evalPhase env (passPrices resolver now s) (activeAlerts s)).1 ++
        (evalPhase env (passPrices resolver now s) (activeAlerts s)).2.map Event.deleteAlert)

/-- A sequence of evaluator invocations (one per tick), threading the
state and concatenating the traces. -/
structure PassInput where
  resolver : Resolver
  env : NotifyEnv
  now : ℚ

/-- Run the evaluator once per input, in order. -/
def runPasses : List PassInput → SysState → SysState × List Event
  | [], s => (s, [])
  | i :: rest, s =>
    ((runPasses rest (alert_checker i.resolver i.env i.now s).1).1,
      (alert_checker i.resolver i.env i.now s).2 ++
        (runPasses rest (alert_checker i.resolver i.env i.now s).1).2)

-- ---------- event classifiers used in the theorem statements ----------

/-- True for the schema-maintenance events of `_ensure_schema`. -/
def Event.isSchema : Event → Bool
  | .schemaRead => true
  | .schemaWrite => true
  | _ => false

/-- True for a resolver invocation. -/
def Event.isResolverCall : Event → Bool
  | .resolverCall _ => true
  | _ => false

/-- True for an alert-store write (a row deletion). -/
def Event.isAlertWrite : Event → Bool
  | .deleteAlert _ => true
  | _ => false

/-- True for a delivery attempt event. -/
def Event.isDeliver : Event → Bool
  | .deliverAlert _ _ _ => true
  | _ => false

/-- True for a delivery attempt event for the given alert id. -/
def Event.isDeliverFor (i : Nat) : Event → Bool
  | .deliverAlert j _ _ => j == i
  | _ => false

/-- True for a deletion event for the given alert id. -/
def Event.isDeleteFor (i : Nat) : Event → Bool
  | .deleteAlert j => j == i
  | _ => false

-- ---------- C4: price cache TTL behaviour ----------

/-- C4: a lookup that finds a cache entry younger than the TTL returns
that entry without touching the resolver; any other lookup calls the
resolver once, stores its result under timestamp `now`, and returns it;
an entry fetched at `T` is reused at `T + (TTL - 1)`, refetched at
`T + (TTL + 1)`, and an entry older than the TTL is never served. -/
theorem C4_price_cache_ttl (resolver : Resolver) (now : ℚ) (cache : PriceCache)
    (symbol : String) :
    (∀ e, cacheLookup cache symbol = some e → now - e.ts < PRICE_CACHE_TTL →
      _get_price_cached resolver now cache symbol =
        ((e.price, e.change, e.source), cache, false)) ∧
    ((∀ e, cacheLookup cache symbol = some e → PRICE_CACHE_TTL ≤ now - e.ts) →
      _get_price_cached resolver now cache symbol =
        (resolver symbol,
          cacheInsert cache symbol
            ⟨(resolver symbol).1, (resolver symbol).2.1, (resolver symbol).2.2, now⟩,
          true)) ∧
    (∀ e, cacheLookup cache symbol = some e → now = e.ts + (PRICE_CACHE_TTL - 1) →
      _get_price_cached resolver now cache symbol =
        ((e.price, e.change, e.source), cache, false)) ∧
    (∀ e, cacheLookup cache symbol = some e → now = e.ts + (PRICE_CACHE_TTL + 1) →
      (_get_price_cached resolver now cache symbol).2.2 = true) ∧
    (∀ e, cacheLookup cache symbol = some e → PRICE_CACHE_TTL < now - e.ts →
      (_get_price_cached resolver now cache symbol).2.2 = true) := by
  have h1 : ∀ e, cacheLookup cache symbol = some e → now - e.ts < PRICE_CACHE_TTL →
      _get_price_cached resolver now cache symbol =
        ((e.price, e.change, e.source), cache, false) := by
    intro e he hlt
    unfold _get_price_cached
    rw [he]
    simp [hlt]
  have h2 : ∀ e, cacheLookup cache symbol = some e → ¬(now - e.ts < PRICE_CACHE_TTL) →
      _get_price_cached resolver now cache symbol =
        (resolver symbol,
          cacheInsert cache symbol
            ⟨(resolver symbol).1, (resolver symbol).2.1, (resolver symbol).2.2, now⟩,
          true) := by
    intro e he hge
    unfold _get_price_cached
    rw [he]
    simp [hge]
  refine ⟨h1, ?_, ?_, ?_, ?_⟩
  · intro hstale
    cases hl : cacheLookup cache symbol with
    | none =>
      unfold _get_price_cached
      rw [hl]
    | some e =>
      exact h2 e hl (by have := hstale e hl; linarith)
  · intro e he hnow
    exact h1 e he (by rw [hnow]; norm_num [PRICE_CACHE_TTL])
  · intro e he hnow
    rw [h2 e he (by rw [hnow]; norm_num [PRICE_CACHE_TTL])]
  · intro e he hgt
    rw [h2 e he (by linarith)]

/-- Concrete cache entry used by the C4 witness. -/
def witEntry : CacheEntry := ⟨some 3, some 1, some "crypto", 100⟩

/-- Concrete cache used by the C4 witness. -/
def witCache : PriceCache := [("bitcoin", witEntry)]

/-- Concrete resolver used by the C4 witness. -/
def witResolver : Resolver := fun _ => (some 7, some 2, some "crypto")

/-- Witness for C4: the entry fetched at 100 is served from the cache at
time 154 = 100 + (TTL - 1) and refetched at 156 = 100 + (TTL + 1). -/
theorem C4_price_cache_ttl_witness :
    cacheLookup witCache "bitcoin" = some witEntry ∧
    _get_price_cached witResolver 154 witCache "bitcoin" =
      ((some 3, some 1, some "crypto"), witCache, false) ∧
    (_get_price_cached witResolver 156 witCache "bitcoin").2.2 = true :=
  ⟨by decide,
   (C4_price_cache_ttl witResolver 154 witCache "bitcoin").2.2.1 witEntry (by decide)
     (by norm_num [witEntry, PRICE_CACHE_TTL]),
   (C4_price_cache_ttl witResolver 156 witCache "bitcoin").2.2.2.1 witEntry (by decide)
     (by norm_num [witEntry, PRICE_CACHE_TTL])⟩

-- ---------- C8: resolve_price provider order ----------

/-- C8: `resolve_price` tries the crypto provider first and returns its
price with source `"crypto"`; only when crypto yields no price does it
try the stock provider, returning source `"stock"`; when both fail it
returns the all-absent triple, and even both providers raising yields
the all-absent triple rather than an exception. -/
theorem C8_resolve_price_order (cf sf : String → FetchResult (Option (ℚ × ℚ)))
    (symbol : String) :
    (∀ p c, get_crypto_price cf symbol = (some p, c) →
      resolve_price cf sf symbol = (some p, c, some "crypto")) ∧
    ((get_crypto_price cf symbol).1 = none →
      ∀ p c, get_stock_price sf symbol = (some p, c) →
        resolve_price cf sf symbol = (some p, c, some "stock")) ∧
    ((get_crypto_price cf symbol).1 = none → (get_stock_price sf symbol).1 = none →
      resolve_price cf sf symbol = (none, none, none)) ∧
    resolve_price (fun _ => FetchResult.raises "down")
        (fun _ => FetchResult.raises "down") symbol = (none, none, none) := by
  refine ⟨?_, ?_, ?_, rfl⟩
  · intro p c h
    unfold resolve_price
    rw [h]
  · intro h1 p c h2
    unfold resolve_price
    rcases hc : get_crypto_price cf symbol with ⟨cp, cc⟩
    rw [hc] at h1
    simp only at h1
    subst h1
    simp only
    rw [h2]
  · intro h1 h2
    unfold resolve_price
    rcases hc : get_crypto_price cf symbol with ⟨cp, cc⟩
    rw [hc] at h1
    simp only at h1
    subst h1
    simp only
    rcases hs : get_stock_price sf symbol with ⟨sp, sc⟩
    rw [hs] at h2
    simp only at h2
    subst h2
    rfl

/-- Concrete crypto provider for the C8 witness: knows no symbol. -/
def witCrypto : String → FetchResult (Option (ℚ × ℚ)) := fun _ => .returns none

/-- Concrete stock provider for the C8 witness: always returns 10 with
change 5. -/
def witStock : String → FetchResult (Option (ℚ × ℚ)) := fun _ => .returns (some (10, 5))

/-- Witness for C8: with crypto failing and stock succeeding,
`resolve_price` returns the stock price with source `"stock"`. -/
theorem C8_resolve_price_order_witness :
    resolve_price witCrypto witStock "AAPL" = (some 10, some 5, some "stock") :=
  (C8_resolve_price_order witCrypto witStock "AAPL").2.1 (by decide) 10 (some 5) (by decide)

-- ---------- C9: notifier cascade ----------

/-- Every attempt recorded by the channel tier is a `channelSend` on the
configured, found, text-like channel. -/
lemma tryChannelTier_attempts (env : NotifyEnv) (a : Attempt)
    (ha : a ∈ (tryChannelTier env).2) :
    ∃ c o, a = Attempt.channelSend c o ∧ env.alertsChannelId = some c ∧
      ∃ ch, env.getChannel c = some ch ∧ ch.isTextLike = true := by
  unfold tryChannelTier at ha
  split at ha
  · simp at ha
  rename_i cid hid
  split at ha
  · simp at ha
  rename_i ch hch
  split at ha
  · rename_i ht
    split at ha
    · simp only [List.mem_singleton] at ha
      subst ha
      exact ⟨cid, _, rfl, hid, ch, hch, ht⟩
    · simp only [List.mem_singleton] at ha
      subst ha
      exact ⟨cid, _, rfl, hid, ch, hch, ht⟩
  · simp at ha

/-- Every attempt recorded by the DM tier is a `dmSend` to the owner. -/
lemma tryDmTier_attempts (env : NotifyEnv) (uid : Nat) (a : Attempt)
    (ha : a ∈ (tryDmTier env uid).2) : ∃ o, a = Attempt.dmSend uid o := by
  unfold tryDmTier at ha
  split at ha
  · simp at ha
  · simp at ha
  split at ha
  · simp only [List.mem_singleton] at ha
    exact ⟨_, ha⟩
  · simp only [List.mem_singleton] at ha
    exact ⟨_, ha⟩

/-- Every attempt recorded by the broadcast loop is a `systemSend`. -/
lemma broadcastLoop_attempts (send : Nat → SendOutcome) :
    ∀ (gs : List GuildInfo) (a : Attempt), a ∈ (broadcastLoop send gs).2 →
      ∃ c o, a = Attempt.systemSend c o := by
  intro gs
  induction gs with
  | nil => intro a ha; simp [broadcastLoop] at ha
  | cons g rest ih =>
    intro a ha
    unfold broadcastLoop at ha
    split at ha
    · exact ih a ha
    rename_i cid hg
    split at ha
    · simp only [List.mem_singleton] at ha
      exact ⟨cid, _, ha⟩
    · simp only [List.mem_cons] at ha
      rcases ha with ha | ha
      · exact ⟨cid, _, ha⟩
      · exact ih a ha

/-- C9: the delivery cascade tries the configured public channel first
(a channel send happens only with a configured, found, text-like
channel and, on success, nothing further is attempted), DMs the owner
only when the channel tier did not deliver, falls back to the guild
broadcast only when the DM tier also failed, and a successful DM stops
the cascade. Totality of `send_alert` over every environment — all of
whose primitives may raise — is the embedded form of "never raises to
its caller". -/
theorem C9_notifier_cascade (env : NotifyEnv) (uid : Nat) (sym : String)
    (price target : ℚ) (direction : String) (change : Option ℚ) :
    (∀ c o, Attempt.channelSend c o ∈ (send_alert env uid sym price target direction change).2 →
      env.botPresent = true ∧ env.alertsChannelId = some c ∧
        ∃ ch, env.getChannel c = some ch ∧ ch.isTextLike = true) ∧
    (env.botPresent = true → ∀ c, (tryChannelTier env).1 = some c →
      (send_alert env uid sym price target direction change).1 = some (Tier.channel c) ∧
      (send_alert env uid sym price target direction change).2 = (tryChannelTier env).2) ∧
    (∀ o, Attempt.dmSend uid o ∈ (send_alert env uid sym price target direction change).2 →
      (tryChannelTier env).1 = none) ∧
    (∀ c o, Attempt.systemSend c o ∈ (send_alert env uid sym price target direction change).2 →
      (tryChannelTier env).1 = none ∧ (tryDmTier env uid).1 = false) ∧
    (env.botPresent = true → (tryChannelTier env).1 = none → (tryDmTier env uid).1 = true →
      (send_alert env uid sym price target direction change).1 = some (Tier.dm uid) ∧
      ∀ c o, Attempt.systemSend c o ∉ (send_alert env uid sym price target direction change).2) := by
  by_cases hb : env.botPresent = true
  · have hb' : ¬(env.botPresent = false) := by simp [hb]
    refine ⟨?_, ?_, ?_, ?_, ?_⟩
    · intro c o hmem
      unfold send_alert at hmem
      rw [if_neg hb'] at hmem
      refine ⟨hb, ?_⟩
      split at hmem
      · obtain ⟨c', o', heq, hrest⟩ := tryChannelTier_attempts env _ hmem
        cases heq
        exact hrest
      · split at hmem
        · rcases List.mem_append.mp hmem with hm | hm
          · obtain ⟨c', o', heq, hrest⟩ := tryChannelTier_attempts env _ hm
            cases heq
            exact hrest
          · obtain ⟨o', heq⟩ := tryDmTier_attempts env uid _ hm
            exact Attempt.noConfusion heq
        · rcases List.mem_append.mp hmem with hm | hm
          · rcases List.mem_append.mp hm with hm2 | hm2
            · obtain ⟨c', o', heq, hrest⟩ := tryChannelTier_attempts env _ hm2
              cases heq
              exact hrest
            · obtain ⟨o', heq⟩ := tryDmTier_attempts env uid _ hm2
              exact Attempt.noConfusion heq
          · obtain ⟨c', o', heq⟩ :=
              broadcastLoop_attempts env.systemChannelSend env.guilds _ hm
            exact Attempt.noConfusion heq
    · intro _ c hc1
      unfold send_alert
      rw [if_neg hb', hc1]
      exact ⟨rfl, rfl⟩
    · intro o hmem
      unfold send_alert at hmem
      rw [if_neg hb'] at hmem
      split at hmem
      · obtain ⟨c', o', heq, hrest⟩ := tryChannelTier_attempts env _ hmem
        exact Attempt.noConfusion heq
      · assumption
    · intro c o hmem
      unfold send_alert at hmem
      rw [if_neg hb'] at hmem
      split at hmem
      · obtain ⟨c', o', heq, hrest⟩ := tryChannelTier_attempts env _ hmem
        exact Attempt.noConfusion heq
      · rename_i hc1
        refine ⟨hc1, ?_⟩
        split at hmem
        · rcases List.mem_append.mp hmem with hm | hm
          · obtain ⟨c', o', heq, hrest⟩ := tryChannelTier_attempts env _ hm
            exact Attempt.noConfusion heq
          · obtain ⟨o', heq⟩ := tryDmTier_attempts env uid _ hm
            exact Attempt.noConfusion heq
        · rename_i hd
          simpa using hd
    · intro _ hc1 hd
      unfold send_alert
      rw [if_neg hb', hc1, if_pos hd]
      refine ⟨rfl, ?_⟩
      intro c o hmem
      rcases List.mem_append.mp hmem with hm | hm
      · obtain ⟨c', o', heq, hrest⟩ := tryChannelTier_attempts env _ hm
        exact Attempt.noConfusion heq
      · obtain ⟨o', heq⟩ := tryDmTier_attempts env uid _ hm
        exact Attempt.noConfusion heq
  · have hb' : env.botPresent = false := by
      cases h : env.botPresent
      · rfl
      · exact absurd h hb
    refine ⟨?_, ?_, ?_, ?_, ?_⟩ <;> simp [send_alert, hb']

/-- Concrete notifier environment for the C9 witness: a configured
text channel 5 whose send raises, a reachable user whose DM succeeds. -/
def witNotifyEnv : NotifyEnv where
  botPresent := true
  alertsChannelId := some 5
  getChannel := fun _ => some ⟨true⟩
  channelSend := fun _ => .raises "http 500"
  fetchUser := fun _ => .returns true
  userSend := fun _ => .ok
  systemChannelSend := fun _ => .ok
  guilds := [⟨some 9⟩]

/-- Witness for C9: with the channel send failing and the DM
succeeding, the cascade delivers by DM and never reaches the
broadcast tier. -/
theorem C9_notifier_cascade_witness :
    (send_alert witNotifyEnv 42 "bitcoin" 3 2 "above" (some 1)).1 = some (Tier.dm 42) ∧
    ∀ c o, Attempt.systemSend c o ∉ (send_alert witNotifyEnv 42 "bitcoin" 3 2 "above" (some 1)).2 :=
  (C9_notifier_cascade witNotifyEnv 42 "bitcoin" 3 2 "above" (some 1)).2.2.2.2
    (by decide) (by decide) (by decide)

-- ---------- helper lemmas about the pass ----------

/-- Every event emitted by `_ensure_schema` is a schema event. -/
lemma ensure_schema_events (sc : Schema) :
    ∀ e ∈ (_ensure_schema sc).2, e.isSchema = true := by
  intro e he
  have hif : ∀ (b : Bool), e ∈ (if b then ([] : List Event) else [Event.schemaWrite]) →
      e = Event.schemaWrite := by
    intro b hm
    cases b
    · simpa using hm
    · simp at hm
  unfold _ensure_schema at he
  simp only [List.mem_append, List.mem_singleton] at he
  rcases he with ((h | h) | h) | h
  · rw [hif _ h]; rfl
  · rw [hif _ h]; rfl
  · rw [h]; rfl
  · rw [hif _ h]; rfl

/-- A schema event is neither a resolver call, a store write, nor a
delivery, and is no delivery or deletion for any alert id. -/
lemma schema_event_classifiers (e : Event) (h : e.isSchema = true) :
    e.isResolverCall = false ∧ e.isAlertWrite = false ∧ e.isDeliver = false := by
  cases e <;> simp_all [Event.isSchema, Event.isResolverCall, Event.isAlertWrite,
    Event.isDeliver]

/-- The fetch phase emits only resolver-call events, at most one per
symbol in its list. -/
lemma fetchPhase_events (resolver : Resolver) (now : ℚ) :
    ∀ (syms : List String) (cache : PriceCache),
      (∀ e ∈ (fetchPhase resolver now syms cache).2.2, e.isResolverCall = true) ∧
      (fetchPhase resolver now syms cache).2.2.length ≤ syms.length := by
  intro syms
  induction syms with
  | nil =>
    intro cache
    exact ⟨by intro e he; simp [fetchPhase] at he, by simp [fetchPhase]⟩
  | cons sym rest ih =>
    intro cache
    constructor
    · intro e he
      simp only [fetchPhase, List.mem_append] at he
      rcases he with he | he
      · split at he
        · simp only [List.mem_singleton] at he
          rw [he]; rfl
        · simp at he
      · exact (ih _).1 e he
    · simp only [fetchPhase, List.length_append, List.length_cons]
      have hr := (ih ((_get_price_cached resolver now cache sym).2.1)).2
      split
      · simp only [List.length_singleton]
        omega
      · simp only [List.length_nil]
        omega

/-- The function `evalStep` on a triggered alert: one delivery event, one marked id. -/
lemma evalStep_triggered (env : NotifyEnv) (prices : List (String × PriceQuote))
    (a : Alert) (price : ℚ) (hp : (pricesGet prices a.symbol).1 = some price)
    (ht : triggered a.direction price a.target = true) :
    evalStep env prices a = ([deliverEventFor env prices a price], [a.id]) := by
  unfold evalStep
  split
  · rename_i hnone
    rw [hp] at hnone
    exact Option.noConfusion hnone
  · rename_i price' hp'
    rw [hp] at hp'
    injection hp' with hpp
    subst hpp
    rw [if_pos ht]

/-- A triggered alert in the list contributes its delivery event and
its id to the `to_delete` list. -/
lemma evalPhase_mem_of_triggered (env : NotifyEnv) (prices : List (String × PriceQuote)) :
    ∀ (alerts : List Alert) (a : Alert), a ∈ alerts →
      ∀ price, (pricesGet prices a.symbol).1 = some price →
        triggered a.direction price a.target = true →
        deliverEventFor env prices a price ∈ (evalPhase env prices alerts).1 ∧
        a.id ∈ (evalPhase env prices alerts).2 := by
  intro alerts
  induction alerts with
  | nil => intro a ha; cases ha
  | cons b rest ih =>
    intro a ha price hp ht
    simp only [evalPhase]
    rcases List.mem_cons.mp ha with rfl | ha'
    · rw [evalStep_triggered env prices a price hp ht]
      exact ⟨List.mem_append_left _ (List.mem_singleton_self _),
        List.mem_append_left _ (List.mem_singleton_self _)⟩
    · obtain ⟨h1, h2⟩ := ih a ha' price hp ht
      exact ⟨List.mem_append_right _ h1, List.mem_append_right _ h2⟩

/-- Every event of the evaluation phase is the delivery event of some
alert of the list that resolved and triggered. -/
lemma evalPhase_events_src (env : NotifyEnv) (prices : List (String × PriceQuote)) :
    ∀ (alerts : List Alert) (e : Event), e ∈ (evalPhase env prices alerts).1 →
      ∃ b, b ∈ alerts ∧ ∃ price, (pricesGet prices b.symbol).1 = some price ∧
        triggered b.direction price b.target = true ∧
        e = deliverEventFor env prices b price := by
  intro alerts
  induction alerts with
  | nil => intro e he; simp [evalPhase] at he
  | cons b rest ih =>
    intro e he
    simp only [evalPhase, List.mem_append] at he
    rcases he with he | he
    · unfold evalStep at he
      split at he
      · simp at he
      · rename_i price hp
        split at he
        · rename_i ht
          simp only [List.mem_singleton] at he
          exact ⟨b, List.mem_cons_self b rest, price, hp, ht, he⟩
        · simp at he
    · obtain ⟨b', hb', hrest⟩ := ih e he
      exact ⟨b', List.mem_cons_of_mem _ hb', hrest⟩

/-- Every id in the `to_delete` list belongs to some alert of the list
that resolved and triggered. -/
lemma evalPhase_delete_src (env : NotifyEnv) (prices : List (String × PriceQuote)) :
    ∀ (alerts : List Alert) (i : Nat), i ∈ (evalPhase env prices alerts).2 →
      ∃ b, b ∈ alerts ∧ b.id = i ∧ ∃ price,
        (pricesGet prices b.symbol).1 = some price ∧
        triggered b.direction price b.target = true := by
  intro alerts
  induction alerts with
  | nil => intro i hi; simp [evalPhase] at hi
  | cons b rest ih =>
    intro i hi
    simp only [evalPhase, List.mem_append] at hi
    rcases hi with hi | hi
    · unfold evalStep at hi
      split at hi
      · simp at hi
      · rename_i price hp
        split at hi
        · rename_i ht
          simp only [List.mem_singleton] at hi
          exact ⟨b, List.mem_cons_self b rest, hi.symm, price, hp, ht⟩
        · simp at hi
    · obtain ⟨b', hb', hrest⟩ := ih i hi
      exact ⟨b', List.mem_cons_of_mem _ hb', hrest⟩

/-- The trigger predicate, spelled out. -/
lemma triggered_iff (d : String) (p t : ℚ) :
    triggered d p t = true ↔ ((d = "above" ∧ p ≥ t) ∨ (d = "below" ∧ p ≤ t)) := by
  unfold triggered
  simp [Bool.or_eq_true, Bool.and_eq_true, decide_eq_true_iff, beq_iff_eq]

/-- A direction that is neither `"above"` nor `"below"` never triggers. -/
lemma triggered_other (d : String) (p t : ℚ) (h1 : d ≠ "above") (h2 : d ≠ "below") :
    triggered d p t = false := by
  cases h : triggered d p t
  · rfl
  · rw [triggered_iff] at h
    rcases h with ⟨h, _⟩ | ⟨h, _⟩
    · exact absurd h h1
    · exact absurd h h2

/-- An element of a singleton-or-pair pattern: two members of the two
sides of an append form a two-element sublist in order. -/
lemma pair_sublist_append {α : Type} {x y : α} {l1 l2 : List α}
    (hx : x ∈ l1) (hy : y ∈ l2) : [x, y].Sublist (l1 ++ l2) :=
  List.Sublist.append (List.singleton_sublist.mpr hx) (List.singleton_sublist.mpr hy)

/-- Every delivery event of a pass comes from an active alert that
resolved to a price and triggered. -/
lemma alert_checker_deliver_src (resolver : Resolver) (env : NotifyEnv) (now : ℚ)
    (s : SysState) (i : Nat) (att : List Attempt) (res : Option Tier)
    (hmem : Event.deliverAlert i att res ∈ (alert_checker resolver env now s).2) :
    ∃ b, b ∈ activeAlerts s ∧ b.id = i ∧ ∃ price,
      (pricesGet (passPrices resolver now s) b.symbol).1 = some price ∧
      triggered b.direction price b.target = true ∧
      att = (send_alert env b.user_id b.symbol price b.target b.direction
        (pricesGet (passPrices resolver now s) b.symbol).2.1).2 ∧
      res = (send_alert env b.user_id b.symbol price b.target b.direction
        (pricesGet (passPrices resolver now s) b.symbol).2.1).1 := by
  unfold alert_checker at hmem
  split at hmem
  · simp at hmem
  split at hmem
  · have h := ensure_schema_events s.schema _ hmem
    simp [Event.isSchema] at h
  split at hmem
  · rcases List.mem_append.mp hmem with h | h
    · have h2 := ensure_schema_events s.schema _ h
      simp [Event.isSchema] at h2
    · simp at h
  · rcases List.mem_append.mp hmem with h | h
    · rcases List.mem_append.mp h with h | h
      · rcases List.mem_append.mp h with h | h
        · rcases List.mem_append.mp h with h | h
          · have h2 := ensure_schema_events s.schema _ h
            simp [Event.isSchema] at h2
          · simp at h
        · have h2 := (fetchPhase_events resolver now
            (uniqueSymbols (activeAlerts s)) s.cache).1 _ h
          simp [Event.isResolverCall] at h2
      · obtain ⟨b, hb1, price, hp, ht, heq⟩ := evalPhase_events_src env _ _ _ h
        unfold deliverEventFor at heq
        injection heq with h1 h2 h3
        exact ⟨b, hb1, h1.symm, price, hp, ht, h2, h3⟩
    · obtain ⟨j, _, heq⟩ := List.mem_map.mp h
      exact Event.noConfusion heq

/-- Every deletion event of a pass comes from an active alert that
resolved to a price and triggered. -/
lemma alert_checker_delete_src (resolver : Resolver) (env : NotifyEnv) (now : ℚ)
    (s : SysState) (i : Nat)
    (hmem : Event.deleteAlert i ∈ (alert_checker resolver env now s).2) :
    ∃ b, b ∈ activeAlerts s ∧ b.id = i ∧ ∃ price,
      (pricesGet (passPrices resolver now s) b.symbol).1 = some price ∧
      triggered b.direction price b.target = true := by
  unfold alert_checker at hmem
  split at hmem
  · simp at hmem
  split at hmem
  · have h := ensure_schema_events s.schema _ hmem
    simp [Event.isSchema] at h
  split at hmem
  · rcases List.mem_append.mp hmem with h | h
    · have h2 := ensure_schema_events s.schema _ h
      simp [Event.isSchema] at h2
    · simp at h
  · rcases List.mem_append.mp hmem with h | h
    · rcases List.mem_append.mp h with h | h
      · rcases List.mem_append.mp h with h | h
        · rcases List.mem_append.mp h with h | h
          · have h2 := ensure_schema_events s.schema _ h
            simp [Event.isSchema] at h2
          · simp at h
        · have h2 := (fetchPhase_events resolver now
            (uniqueSymbols (activeAlerts s)) s.cache).1 _ h
          simp [Event.isResolverCall] at h2
      · obtain ⟨b, _, _, _, _, heq⟩ := evalPhase_events_src env _ _ _ h
        unfold deliverEventFor at heq
        exact Event.noConfusion heq
    · obtain ⟨j, hj, heq⟩ := List.mem_map.mp h
      injection heq with h1
      obtain ⟨b, hb1, hb2, hrest⟩ := evalPhase_delete_src env _ _ _ hj
      exact ⟨b, hb1, hb2.trans h1, hrest⟩

/-- A member of the store that is not in the `to_delete` list of the
pass is still in the store after the pass. -/
lemma alert_checker_mem_preserved (resolver : Resolver) (env : NotifyEnv) (now : ℚ)
    (s : SysState) (a : Alert) (ha : a ∈ s.alerts)
    (hnd : a.id ∉ (evalPhase env (passPrices resolver now s) (activeAlerts s)).2) :
    a ∈ (alert_checker resolver env now s).1.alerts := by
  unfold alert_checker
  split
  · exact ha
  split
  · exact ha
  split
  · exact ha
  · exact List.mem_filter.mpr ⟨ha, by simpa using hnd⟩

/-- A pass preserves no-duplicate alert ids. -/
lemma alert_checker_nodup (resolver : Resolver) (env : NotifyEnv) (now : ℚ)
    (s : SysState) (hnodup : (s.alerts.map (fun x => x.id)).Nodup) :
    ((alert_checker resolver env now s).1.alerts.map (fun x => x.id)).Nodup := by
  unfold alert_checker
  split
  · exact hnodup
  split
  · exact hnodup
  split
  · exact hnodup
  · exact hnodup.sublist (List.Sublist.map _ (List.filter_sublist _))

-- ---------- C3: reentrancy guard ----------

/-- C3: invoking the evaluator while a previous pass still holds the
lock starts no second pass: the alert store and the price cache are
untouched and the only events are the idempotent schema-ensure ones —
no alert-store read or write, no resolver call, no delivery. -/
theorem C3_reentrancy_skip (resolver : Resolver) (env : NotifyEnv) (now : ℚ)
    (s : SysState) (hlock : s.locked = true) :
    (alert_checker resolver env now s).1.alerts = s.alerts ∧
    (alert_checker resolver env now s).1.cache = s.cache ∧
    ∀ e ∈ (alert_checker resolver env now s).2, e.isSchema = true := by
  unfold alert_checker
  by_cases hb : env.botPresent = false
  · rw [if_pos hb]
    exact ⟨rfl, rfl, by intro e he; simp at he⟩
  · rw [if_neg hb, if_pos hlock]
    exact ⟨rfl, rfl, ensure_schema_events s.schema⟩

/-- Concrete active alert used by the pass-level witnesses. -/
def witAlert : Alert := ⟨1, 7, "bitcoin", 50000, "above", false⟩

/-- Concrete fully-migrated schema used by the pass-level witnesses. -/
def witSchema : Schema := ⟨true, true, true⟩

/-- Concrete resolver used by the pass-level witnesses: every symbol is
worth 60000. -/
def witPassResolver : Resolver := fun _ => (some 60000, some 1, some "crypto")

/-- Concrete state whose lock is held. -/
def witLockedState : SysState := ⟨true, witSchema, [witAlert], []⟩

/-- Witness for C3: with the lock held and an active alert that would
trigger, the pass leaves the store and cache alone and emits only
schema events. -/
theorem C3_reentrancy_skip_witness :
    (alert_checker witPassResolver witNotifyEnv 0 witLockedState).1.alerts = [witAlert] ∧
    (alert_checker witPassResolver witNotifyEnv 0 witLockedState).1.cache = [] ∧
    ∀ e ∈ (alert_checker witPassResolver witNotifyEnv 0 witLockedState).2,
      e.isSchema = true :=
  C3_reentrancy_skip witPassResolver witNotifyEnv 0 witLockedState rfl

-- ---------- C7: empty pass ----------

/-- C7: a pass whose load phase finds zero active alerts terminates at
once: no resolver call, no alert-store write, no delivery, and both the
store and the cache are left unchanged. -/
theorem C7_empty_pass (resolver : Resolver) (env : NotifyEnv) (now : ℚ)
    (s : SysState) (hempty : activeAlerts s = []) :
    (alert_checker resolver env now s).1.alerts = s.alerts ∧
    (alert_checker resolver env now s).1.cache = s.cache ∧
    ∀ e ∈ (alert_checker resolver env now s).2,
      e.isResolverCall = false ∧ e.isAlertWrite = false ∧ e.isDeliver = false := by
  unfold alert_checker
  by_cases hb : env.botPresent = false
  · rw [if_pos hb]
    exact ⟨rfl, rfl, by intro e he; simp at he⟩
  rw [if_neg hb]
  by_cases hl : s.locked = true
  · rw [if_pos hl]
    exact ⟨rfl, rfl, fun e he =>
      schema_event_classifiers e (ensure_schema_events s.schema e he)⟩
  rw [if_neg hl, if_pos (by simp [hempty])]
  refine ⟨rfl, rfl, ?_⟩
  intro e he
  rcases List.mem_append.mp he with h | h
  · exact schema_event_classifiers e (ensure_schema_events s.schema e h)
  · simp only [List.mem_singleton] at h
    subst h
    exact ⟨rfl, rfl, rfl⟩

/-- Concrete paused alert: present in the store, invisible to the load
phase. -/
def witPausedAlert : Alert := ⟨2, 7, "doge", 1, "above", true⟩

/-- Concrete unlocked state with no active alert. -/
def witEmptyState : SysState := ⟨false, witSchema, [witPausedAlert], []⟩

/-- Witness for C7: a pass over a store holding only a paused alert
changes nothing and performs no resolver call, store write or
delivery. -/
theorem C7_empty_pass_witness :
    (alert_checker witPassResolver witNotifyEnv 0 witEmptyState).1.alerts =
      [witPausedAlert] ∧
    (alert_checker witPassResolver witNotifyEnv 0 witEmptyState).1.cache = [] ∧
    ∀ e ∈ (alert_checker witPassResolver witNotifyEnv 0 witEmptyState).2,
      e.isResolverCall = false ∧ e.isAlertWrite = false ∧ e.isDeliver = false :=
  C7_empty_pass witPassResolver witNotifyEnv 0 witEmptyState (by decide)

-- ---------- C5: resolver fan-out bound ----------

/-- C5: in any pass, the number of resolver invocations is at most the
number of distinct symbols among the active alerts loaded for the
pass. -/
theorem C5_resolver_fanout_bound (resolver : Resolver) (env : NotifyEnv) (now : ℚ)
    (s : SysState) :
    ((alert_checker resolver env now s).2.filter Event.isResolverCall).length ≤
      (uniqueSymbols (activeAlerts s)).length := by
  have hschema : (_ensure_schema s.schema).2.filter Event.isResolverCall = [] :=
    List.filter_eq_nil_iff.mpr (fun e he => by
      simp [(schema_event_classifiers e (ensure_schema_events s.schema e he)).1])
  unfold alert_checker
  by_cases hb : env.botPresent = false
  · rw [if_pos hb]; simp
  rw [if_neg hb]
  by_cases hl : s.locked = true
  · rw [if_pos hl]
    simp [hschema]
  rw [if_neg hl]
  by_cases hem : (activeAlerts s).isEmpty = true
  · rw [if_pos hem]
    simp [List.filter_append, hschema, Event.isResolverCall]
  rw [if_neg hem]
  simp only [List.filter_append, List.length_append, hschema]
  have h1 : ([Event.loadAlerts (activeAlerts s).length].filter Event.isResolverCall)
      = [] := rfl
  have h2 : ((evalPhase env (passPrices resolver now s) (activeAlerts s)).1.filter
      Event.isResolverCall) = [] := by
    apply List.filter_eq_nil_iff.mpr
    intro e he
    obtain ⟨b, _, price, _, _, heq⟩ := evalPhase_events_src env _ _ _ he
    subst heq
    simp [deliverEventFor, Event.isResolverCall]
  have h3 : (((evalPhase env (passPrices resolver now s) (activeAlerts s)).2.map
      Event.deleteAlert).filter Event.isResolverCall) = [] := by
    apply List.filter_eq_nil_iff.mpr
    intro e he
    obtain ⟨j, _, heq⟩ := List.mem_map.mp he
    subst heq
    simp [Event.isResolverCall]
  rw [h1, h2, h3]
  simp only [List.length_nil]
  have h4 := List.length_filter_le Event.isResolverCall
    (fetchPhase resolver now (uniqueSymbols (activeAlerts s)) s.cache).2.2
  have h5 := (fetchPhase_events resolver now (uniqueSymbols (activeAlerts s)) s.cache).2
  omega

-- ---------- C1: trigger predicate ----------

/-- C1: an active alert whose symbol resolved to price `p` produces a
delivery in the pass iff (direction is `"above"` and `p ≥ target`) or
(direction is `"below"` and `p ≤ target`); at the boundary `p = target`
either direction triggers. -/
theorem C1_trigger_predicate (resolver : Resolver) (env : NotifyEnv) (now : ℚ)
    (s : SysState) (a : Alert) (price : ℚ)
    (hb : env.botPresent = true) (hl : s.locked = false)
    (hnodup : (s.alerts.map (fun x => x.id)).Nodup)
    (ha : a ∈ s.alerts) (hact : a.paused = false)
    (hp : (pricesGet (passPrices resolver now s) a.symbol).1 = some price) :
    ((∃ att res, Event.deliverAlert a.id att res ∈ (alert_checker resolver env now s).2) ↔
      ((a.direction = "above" ∧ price ≥ a.target) ∨
        (a.direction = "below" ∧ price ≤ a.target))) ∧
    (price = a.target → a.direction = "above" ∨ a.direction = "below" →
      ∃ att res, Event.deliverAlert a.id att res ∈ (alert_checker resolver env now s).2) := by
  have hamem : a ∈ activeAlerts s := List.mem_filter.mpr ⟨ha, by simp [hact]⟩
  have hb' : ¬(env.botPresent = false) := by simp [hb]
  have hl' : ¬(s.locked = true) := by simp [hl]
  have hne : ¬((activeAlerts s).isEmpty = true) := by
    simp only [List.isEmpty_iff]
    exact List.ne_nil_of_mem hamem
  have hmk : triggered a.direction price a.target = true →
      ∃ att res, Event.deliverAlert a.id att res ∈ (alert_checker resolver env now s).2 := by
    intro ht
    obtain ⟨h1, _⟩ := evalPhase_mem_of_triggered env (passPrices resolver now s)
      (activeAlerts s) a hamem price hp ht
    refine ⟨(send_alert env a.user_id a.symbol price a.target a.direction
        (pricesGet (passPrices resolver now s) a.symbol).2.1).2,
      (send_alert env a.user_id a.symbol price a.target a.direction
        (pricesGet (passPrices resolver now s) a.symbol).2.1).1, ?_⟩
    unfold alert_checker
    rw [if_neg hb', if_neg hl', if_neg hne]
    exact List.mem_append_left _ (List.mem_append_right _ h1)
  have hfwd : (∃ att res, Event.deliverAlert a.id att res ∈
      (alert_checker resolver env now s).2) →
      triggered a.direction price a.target = true := by
    rintro ⟨att, res, hmem⟩
    obtain ⟨b, hbmem, hbid, price', hp', ht', -, -⟩ :=
      alert_checker_deliver_src resolver env now s _ _ _ hmem
    have hba : b = a :=
      List.inj_on_of_nodup_map hnodup (List.mem_of_mem_filter hbmem) ha hbid
    subst hba
    rw [hp] at hp'
    injection hp' with hpe
    rwa [← hpe] at ht'
  refine ⟨⟨fun h => (triggered_iff _ _ _).mp (hfwd h),
    fun h => hmk ((triggered_iff _ _ _).mpr h)⟩, ?_⟩
  intro heq hd
  apply hmk
  rw [triggered_iff]
  rcases hd with hd | hd
  · exact Or.inl ⟨hd, ge_of_eq heq⟩
  · exact Or.inr ⟨hd, le_of_eq heq⟩

/-- Concrete unlocked state holding one active `"above" 50000` alert. -/
def witState : SysState := ⟨false, witSchema, [witAlert], []⟩

/-- Witness for C1: with the resolver pricing `"bitcoin"` at 60000,
the `"above" 50000` alert produces a delivery event. -/
theorem C1_trigger_predicate_witness :
    ∃ att res, Event.deliverAlert 1 att res ∈
      (alert_checker witPassResolver witNotifyEnv 0 witState).2 :=
  ((C1_trigger_predicate witPassResolver witNotifyEnv 0 witState witAlert 60000 rfl rfl
      (by decide) (by decide) rfl (by decide)).1).mpr (Or.inl ⟨rfl, by decide⟩)

-- ---------- C2: deliver happens-before delete, delete regardless ----------

/-- C2: a triggered alert has its delivery attempted before its
deletion event, and is gone from the store when the pass ends; the
environment `env` is universally quantified over every delivery
outcome — all tiers failing or raising included — so consumption does
not depend on delivery succeeding (the embedded `send_alert` is total,
mirroring that the source catches every send exception). -/
theorem C2_deliver_then_delete (resolver : Resolver) (env : NotifyEnv) (now : ℚ)
    (s : SysState) (a : Alert) (price : ℚ)
    (hb : env.botPresent = true) (hl : s.locked = false)
    (ha : a ∈ s.alerts) (hact : a.paused = false)
    (hp : (pricesGet (passPrices resolver now s) a.symbol).1 = some price)
    (ht : triggered a.direction price a.target = true) :
    (∃ att res, [Event.deliverAlert a.id att res, Event.deleteAlert a.id].Sublist
      (alert_checker resolver env now s).2) ∧
    a ∉ (alert_checker resolver env now s).1.alerts := by
  have hamem : a ∈ activeAlerts s := List.mem_filter.mpr ⟨ha, by simp [hact]⟩
  have hb' : ¬(env.botPresent = false) := by simp [hb]
  have hl' : ¬(s.locked = true) := by simp [hl]
  have hne : ¬((activeAlerts s).isEmpty = true) := by
    simp only [List.isEmpty_iff]
    exact List.ne_nil_of_mem hamem
  obtain ⟨h1, h2⟩ := evalPhase_mem_of_triggered env (passPrices resolver now s)
    (activeAlerts s) a hamem price hp ht
  constructor
  · refine ⟨(send_alert env a.user_id a.symbol price a.target a.direction
        (pricesGet (passPrices resolver now s) a.symbol).2.1).2,
      (send_alert env a.user_id a.symbol price a.target a.direction
        (pricesGet (passPrices resolver now s) a.symbol).2.1).1, ?_⟩
    unfold alert_checker
    rw [if_neg hb', if_neg hl', if_neg hne]
    exact pair_sublist_append (List.mem_append_right _ h1)
      (List.mem_map_of_mem _ h2)
  · unfold alert_checker
    rw [if_neg hb', if_neg hl', if_neg hne]
    intro hmem
    have h3 := (List.mem_filter.mp hmem).2
    simp at h3
    exact h3 h2

/-- Witness for C2: the triggered `"above" 50000` alert at price 60000
is delivered, then deleted, and leaves the store. -/
theorem C2_deliver_then_delete_witness :
    (∃ att res, [Event.deliverAlert 1 att res, Event.deleteAlert 1].Sublist
      (alert_checker witPassResolver witNotifyEnv 0 witState).2) ∧
    witAlert ∉ (alert_checker witPassResolver witNotifyEnv 0 witState).1.alerts :=
  C2_deliver_then_delete witPassResolver witNotifyEnv 0 witState witAlert 60000 rfl rfl
    (by decide) rfl (by decide) (by decide)

-- ---------- C6: unresolved symbols defer silently ----------

/-- C6: an alert whose symbol resolves to an absent price this pass is
skipped silently: no delivery event carries its id, no deletion event
carries its id, and the unchanged record is still in the store for the
next pass. -/
theorem C6_unresolved_deferred (resolver : Resolver) (env : NotifyEnv) (now : ℚ)
    (s : SysState) (a : Alert)
    (hnodup : (s.alerts.map (fun x => x.id)).Nodup)
    (ha : a ∈ s.alerts)
    (hp : (pricesGet (passPrices resolver now s) a.symbol).1 = none) :
    a ∈ (alert_checker resolver env now s).1.alerts ∧
    (∀ att res, Event.deliverAlert a.id att res ∉ (alert_checker resolver env now s).2) ∧
    Event.deleteAlert a.id ∉ (alert_checker resolver env now s).2 := by
  have hnotdel : a.id ∉ (evalPhase env (passPrices resolver now s) (activeAlerts s)).2 := by
    intro hdel
    obtain ⟨b, hbmem, hbid, price, hp', ht⟩ := evalPhase_delete_src env _ _ _ hdel
    have hba : b = a :=
      List.inj_on_of_nodup_map hnodup (List.mem_of_mem_filter hbmem) ha hbid
    subst hba
    rw [hp] at hp'
    exact Option.noConfusion hp'
  refine ⟨alert_checker_mem_preserved resolver env now s a ha hnotdel, ?_, ?_⟩
  · intro att res hmem
    obtain ⟨b, hbmem, hbid, price, hp', ht, -, -⟩ :=
      alert_checker_deliver_src resolver env now s _ _ _ hmem
    have hba : b = a :=
      List.inj_on_of_nodup_map hnodup (List.mem_of_mem_filter hbmem) ha hbid
    subst hba
    rw [hp] at hp'
    exact Option.noConfusion hp'
  · intro hmem
    obtain ⟨b, hbmem, hbid, price, hp', ht⟩ :=
      alert_checker_delete_src resolver env now s _ hmem
    have hba : b = a :=
      List.inj_on_of_nodup_map hnodup (List.mem_of_mem_filter hbmem) ha hbid
    subst hba
    rw [hp] at hp'
    exact Option.noConfusion hp'

/-- Concrete resolver for the C6 witness: resolution fails for every
symbol. -/
def witFailResolver : Resolver := fun _ => (none, none, none)

/-- Witness for C6: with resolution failing, the active alert is
neither delivered nor deleted and survives the pass. -/
theorem C6_unresolved_deferred_witness :
    witAlert ∈ (alert_checker witFailResolver witNotifyEnv 0 witState).1.alerts ∧
    (∀ att res, Event.deliverAlert 1 att res ∉
      (alert_checker witFailResolver witNotifyEnv 0 witState).2) ∧
    Event.deleteAlert 1 ∉ (alert_checker witFailResolver witNotifyEnv 0 witState).2 :=
  C6_unresolved_deferred witFailResolver witNotifyEnv 0 witState witAlert
    (by decide) (by decide) (by decide)

-- ---------- C10: unknown direction never fires ----------

/-- One pass never delivers or deletes an alert whose direction is
neither `"above"` nor `"below"`. -/
lemma alert_checker_bad_direction (resolver : Resolver) (env : NotifyEnv) (now : ℚ)
    (s : SysState) (a : Alert)
    (hnodup : (s.alerts.map (fun x => x.id)).Nodup)
    (ha : a ∈ s.alerts)
    (hda : a.direction ≠ "above") (hdb : a.direction ≠ "below") :
    a ∈ (alert_checker resolver env now s).1.alerts ∧
    (∀ att res, Event.deliverAlert a.id att res ∉ (alert_checker resolver env now s).2) ∧
    Event.deleteAlert a.id ∉ (alert_checker resolver env now s).2 := by
  have hnotdel : a.id ∉ (evalPhase env (passPrices resolver now s) (activeAlerts s)).2 := by
    intro hdel
    obtain ⟨b, hbmem, hbid, price, hp', ht⟩ := evalPhase_delete_src env _ _ _ hdel
    have hba : b = a :=
      List.inj_on_of_nodup_map hnodup (List.mem_of_mem_filter hbmem) ha hbid
    subst hba
    rw [triggered_other _ _ _ hda hdb] at ht
    exact Bool.noConfusion ht
  refine ⟨alert_checker_mem_preserved resolver env now s a ha hnotdel, ?_, ?_⟩
  · intro att res hmem
    obtain ⟨b, hbmem, hbid, price, hp', ht, -, -⟩ :=
      alert_checker_deliver_src resolver env now s _ _ _ hmem
    have hba : b = a :=
      List.inj_on_of_nodup_map hnodup (List.mem_of_mem_filter hbmem) ha hbid
    subst hba
    rw [triggered_other _ _ _ hda hdb] at ht
    exact Bool.noConfusion ht
  · intro hmem
    obtain ⟨b, hbmem, hbid, price, hp', ht⟩ :=
      alert_checker_delete_src resolver env now s _ hmem
    have hba : b = a :=
      List.inj_on_of_nodup_map hnodup (List.mem_of_mem_filter hbmem) ha hbid
    subst hba
    rw [triggered_other _ _ _ hda hdb] at ht
    exact Bool.noConfusion ht

/-- C10: an active alert whose direction string is neither `"above"`
nor `"below"` is never triggered by the evaluator: across any sequence
of passes it is never delivered, never deleted, and its unchanged
record persists in the store. -/
theorem C10_bad_direction_persists (inputs : List PassInput) (s : SysState) (a : Alert)
    (hnodup : (s.alerts.map (fun x => x.id)).Nodup)
    (ha : a ∈ s.alerts)
    (hda : a.direction ≠ "above") (hdb : a.direction ≠ "below") :
    a ∈ (runPasses inputs s).1.alerts ∧
    (∀ att res, Event.deliverAlert a.id att res ∉ (runPasses inputs s).2) ∧
    Event.deleteAlert a.id ∉ (runPasses inputs s).2 := by
  revert s
  induction inputs with
  | nil =>
    intro s hnodup ha
    exact ⟨ha, fun att res h => by simp [runPasses] at h, by simp [runPasses]⟩
  | cons i rest ih =>
    intro s hnodup ha
    obtain ⟨h1, h2, h3⟩ :=
      alert_checker_bad_direction i.resolver i.env i.now s a hnodup ha hda hdb
    have hnodup2 := alert_checker_nodup i.resolver i.env i.now s hnodup
    obtain ⟨g1, g2, g3⟩ := ih _ hnodup2 h1
    refine ⟨g1, ?_, ?_⟩
    · intro att res hmem
      simp only [runPasses, List.mem_append] at hmem
      rcases hmem with h | h
      · exact h2 att res h
      · exact g2 att res h
    · intro hmem
      simp only [runPasses, List.mem_append] at hmem
      rcases hmem with h | h
      · exact h3 h
      · exact g3 h

/-- Concrete alert with an unknown direction string. -/
def witOddAlert : Alert := ⟨3, 7, "bitcoin", 50000, "sideways", false⟩

/-- Concrete unlocked state holding only the unknown-direction alert. -/
def witOddState : SysState := ⟨false, witSchema, [witOddAlert], []⟩

/-- Concrete pass input for the C10 witness. -/
def witPassInput : PassInput := ⟨witPassResolver, witNotifyEnv, 0⟩

/-- Witness for C10: over two passes in which its symbol resolves to
60000, the `"sideways"` alert is never delivered or deleted and is
still stored. -/
theorem C10_bad_direction_persists_witness :
    witOddAlert ∈ (runPasses [witPassInput, witPassInput] witOddState).1.alerts ∧
    (∀ att res, Event.deliverAlert 3 att res ∉
      (runPasses [witPassInput, witPassInput] witOddState).2) ∧
    Event.deleteAlert 3 ∉ (runPasses [witPassInput, witPassInput] witOddState).2 :=
  C10_bad_direction_persists [witPassInput, witPassInput] witOddState witOddAlert
    (by decide) (by decide) (by decide) (by decide)

end Wicksy
